import Mathlib

/-!
Verification development for the `scraper.py` bounded-depth same-domain web
scraper.  The Python source is shallowly embedded: the HTML tree produced by
the external parser is modelled by `Scraper.Node`, the external URL library
(`urlparse` / `urljoin`) is kept abstract as fields of the crawl context
`Scraper.Ctx`, stateful code is modelled by explicit state passing, and Python
exceptions are modelled by `Option` (with `none` meaning the exception).
-/

namespace Scraper

/-- Result of `urlparse`: the components of a URL that `scraper.py` reads. -/
structure ParsedUrl where
  scheme : String
  netloc : String
  path : String

/-- A parsed HTML tree as produced by BeautifulSoup: an element with a tag
name, an attribute list and children, or a text node.  The whole parsed
document is represented by a root element (BeautifulSoup's synthetic
document object) whose descendants are the parse tree. -/
inductive Node where
  | text : String → Node
  | elem : String → List (String × String) → List Node → Node

mutual
/-- BeautifulSoup `get_text()`: concatenation of all text descendants in
document order. -/
def getText : Node → String
  | .text s => s
  | .elem _ _ cs => getTextList cs
termination_by structural n => n

def getTextList : List Node → String
  | [] => ""
  | n :: ns => getText n ++ getTextList ns
termination_by structural l => l
end

/-- Attribute lookup on an element (`tag['name']` / `tag.get('name')` both
read this; the subscript form raises `KeyError` when the result is `none`). -/
def getAttr (name : String) : Node → Option String
  | .text _ => none
  | .elem _ attrs _ => (attrs.find? (fun a => a.1 == name)).map (fun a => a.2)

mutual
/-- All descendant nodes (excluding the node itself) satisfying a predicate,
in document (pre-)order — the model of BeautifulSoup `find_all`. -/
def findAllNode (p : Node → Bool) : Node → List Node
  | .text _ => []
  | .elem t a cs =>
    (if p (.elem t a cs) then [Node.elem t a cs] else []) ++ findAllList p cs
termination_by structural n => n

def findAllList (p : Node → Bool) : List Node → List Node
  | [] => []
  | n :: ns => findAllNode p n ++ findAllList p ns
termination_by structural l => l
end

/-- `soup.find_all(...)` on a node searches its descendants only. -/
def Node.findAll (n : Node) (p : Node → Bool) : List Node :=
  match n with
  | .text _ => []
  | .elem _ _ cs => findAllList p cs

/-- `soup.find(...)`: first descendant match in document order, if any. -/
def Node.find (n : Node) (p : Node → Bool) : Option Node :=
  (n.findAll p).head?

mutual
/-- Removal of every element whose tag is in `tags`, together with its whole
subtree — the model of `element.decompose()` applied to all matches of
`soup(["script", ...])`. -/
def pruneNode (tags : List String) : Node → Option Node
  | .text s => some (.text s)
  | .elem t a cs =>
    if tags.contains t then none else some (.elem t a (pruneList tags cs))
termination_by structural n => n

def pruneList (tags : List String) : List Node → List Node
  | [] => []
  | n :: ns =>
    match pruneNode tags n with
    | none => pruneList tags ns
    | some n2 => n2 :: pruneList tags ns
termination_by structural l => l
end

/-- Decomposition applied below the document root (the BeautifulSoup object
itself carries no tag and is never matched). -/
def removeTags (tags : List String) (n : Node) : Node :=
  match n with
  | .text s => .text s
  | .elem t a cs => .elem t a (pruneList tags cs)

/-- Character-list test that `pre` is an initial segment of `l`. -/
def leadsWith : List Char → List Char → Bool
  | [], _ => true
  | _ :: _, [] => false
  | a :: as, b :: bs => a == b && leadsWith as bs

/-- Python `str.startswith(pre)`. -/
def pyStartsWith (pre s : String) : Bool :=
  leadsWith pre.data s.data

/-- Python `str.endswith(suf)` — a case-sensitive suffix test. -/
def pyEndsWith (suf s : String) : Bool :=
  leadsWith suf.data.reverse s.data.reverse

/-- Python `str.strip()`: remove leading and trailing whitespace. -/
def pyStrip (s : String) : String :=
  ⟨((s.data.dropWhile Char.isWhitespace).reverse.dropWhile Char.isWhitespace).reverse⟩

/-- Helper for `splitWs`: accumulate the current word (reversed). -/
def splitWsAux : List Char → List Char → List String
  | [], acc => if acc.isEmpty then [] else [⟨acc.reverse⟩]
  | c :: cs, acc =>
    if c.isWhitespace then
      if acc.isEmpty then splitWsAux cs [] else (⟨acc.reverse⟩ : String) :: splitWsAux cs []
    else splitWsAux cs (c :: acc)

/-- Python `str.split()` (split on whitespace, dropping empty pieces), used
for multi-valued `class` attributes. -/
def splitWs (s : String) : List String :=
  splitWsAux s.data []

/-- Tag-name test. -/
def isTag (t : String) (n : Node) : Bool :=
  match n with
  | .elem t2 _ _ => t2 == t
  | .text _ => false

/-- BeautifulSoup attribute matching: `class` is whitespace-multi-valued,
every other attribute is compared for exact equality. -/
def attrMatches (name val : String) (n : Node) : Bool :=
  if name = "class" then
    match getAttr "class" n with
    | some v => (splitWs v).contains val
    | none => false
  else getAttr name n == some val

/-- Matcher for `soup.find('meta', property=v)`. -/
def metaProp (v : String) (n : Node) : Bool :=
  isTag "meta" n && (getAttr "property" n == some v)

/-- The CSS selectors used by `extract_content`: a bare tag name, `.class`,
or `#id`. -/
def selMatches (sel : String) (n : Node) : Bool :=
  if pyStartsWith "." sel then attrMatches "class" (sel.drop 1) n
  else if pyStartsWith "#" sel then getAttr "id" n == some (sel.drop 1)
  else isTag sel n

/-- `soup.select_one(sel)`: first descendant matching the selector. -/
def selectOne (sel : String) (soup : Node) : Option Node :=
  soup.find (selMatches sel)

/-- Python `x or d` for `x : Optional[str]`: `None` and `""` are falsy. -/
def pyOr (s : Option String) (dflt : String) : String :=
  match s with
  | none => dflt
  | some v => if v = "" then dflt else v

/-- Python truthiness of an `Optional[str]`. -/
def pyTruthy : Option String → Bool
  | none => false
  | some s => s ≠ ""

/-- `extract_title` (scraper.py lines 111-120).  `none` models the `KeyError`
raised by `element['content']` when the og:title meta has no `content`
attribute; every other path returns normally. -/
def extract_title (soup : Node) : Option String :=
  match soup.find (isTag "h1") with
  | some h1 => some (pyOr (some (pyStrip (getText h1))) "Unknown Title")
  | none =>
    match soup.find (metaProp "og:title") with
    | some m =>
      match getAttr "content" m with
      | none => none
      | some c => some (pyOr (some (pyStrip c)) "Unknown Title")
    | none =>
      match soup.find (isTag "title") with
      | some t => some (pyOr (some (pyStrip (getText t))) "Unknown Title")
      | none => some (pyOr none "Unknown Title")

/-- The ordered date locators of `extract_date`: tag, attribute, value. -/
def dateLocators : List (String × String × String) :=
  [("meta", "property", "article:published_time"),
   ("meta", "name", "date"),
   ("meta", "name", "publication_date"),
   ("time", "class", "entry-date")]

/-- The loop of `extract_date`: `date` is carried across iterations and the
loop breaks at the first truthy extracted value. -/
def dateLoop (soup : Node) : List (String × String × String) → Option String → Option String
  | [], date => date
  | l :: ls, date =>
    match soup.find (fun n => isTag l.1 n && attrMatches l.2.1 l.2.2 n) with
    | none => dateLoop soup ls date
    | some e =>
      let d : Option String :=
        if l.1 = "meta" then getAttr "content" e else some (pyStrip (getText e))
      if pyTruthy d then d else dateLoop soup ls d

/-- `extract_date` (scraper.py lines 122-142). -/
def extract_date (soup : Node) : String :=
  pyOr (dateLoop soup dateLocators none) "Unknown Date"

/-- Tags decomposed by `extract_content` before any text extraction. -/
def unwantedTags : List String := ["script", "style", "nav", "footer", "header"]

/-- Candidate content-container selectors, in order. -/
def contentSelectors : List String :=
  ["article", "main", ".content", "#content", ".post", ".article"]

/-- Container selection of `extract_content`: first selector match, else
`soup.body` (the first `<body>` element), else `none`. -/
def contentContainer (s : Node) : Option Node :=
  match contentSelectors.findSome? (fun sel => selectOne sel s) with
  | some c => some c
  | none => s.find (isTag "body")

/-- One step of the paragraph loop: `if text: content += text + "\n\n"`. -/
def paraStep (acc : String) (p : Node) : String :=
  let t := pyStrip (getText p)
  if t = "" then acc else acc ++ (t ++ "\n\n")

/-- `extract_content` (scraper.py lines 144-175).  `none` models the
`AttributeError` raised by `content_container.find_all` when no container
selector matches and the document has no `<body>`. -/
def extract_content (soup : Node) : Option String :=
  match contentContainer (removeTags unwantedTags soup) with
  | none => none
  | some c =>
    some (if pyStrip ((c.findAll (isTag "p")).foldl paraStep "") = ""
          then pyStrip (getText c)
          else (c.findAll (isTag "p")).foldl paraStep "")

/-- Matcher for `soup.find_all('a', href=True)`. -/
def isAnchorWithHref (n : Node) : Bool :=
  isTag "a" n && (getAttr "href" n).isSome

/-- The hrefs over which the link-discovery loop of `scrape_website` iterates.
It runs after `extract_content` has decomposed the unwanted tags in place, so
anchors inside `nav`/`header`/`footer` (and the other removed subtrees) are
not seen. -/
def pageLinks (doc : Node) : List String :=
  ((removeTags unwantedTags doc).findAll isAnchorWithHref).filterMap (getAttr "href")

/-- One element of the Result list (`page_data` in `scrape_website`). -/
structure PageRecord where
  title : String
  date : String
  link : String
  content : String
deriving DecidableEq

/-- The crawl context: the external URL collaborators (`urljoin`, `urlparse`
are library functions, kept abstract), the reachable web (a finite map from
URL to parsed document; absent URLs model any fetch/parse exception), and the
crawl bounds. -/
structure Ctx where
  urljoin : String → String → String
  urlparse : String → ParsedUrl
  web : List (String × Node)
  max_pages : Nat
  max_depth : Nat

/-- Fetch-and-parse of one URL: `some` is a successful `requests.get` plus
`BeautifulSoup` parse, `none` is any exception raised by them. -/
def fetchDoc (web : List (String × Node)) (u : String) : Option Node :=
  (web.find? (fun p => p.1 == u)).map (fun p => p.2)

/-- The fixed extension denylist of `scrape_website` (line 93). -/
def denyExts : List String := [".pdf", ".jpg", ".png", ".gif"]

/-- The canonical form kept by the crawler: `f"{scheme}://{netloc}{path}"`
(query and fragment dropped) — `scrape_website` line 82. -/
def cleanUrl (p : ParsedUrl) : String :=
  p.scheme ++ "://" ++ p.netloc ++ p.path

/-- The body of the link-discovery loop for one candidate href
(`scrape_website` lines 70-94): resolve, check scheme, canonicalize, check
the visited set, the domain and the extension denylist; `some clean_url`
means the link is accepted. -/
def linkAccept (ctx : Ctx) (base_domain current_url : String) (visited : List String)
    (href : String) : Option String :=
  if !(pyStartsWith "http://" (ctx.urljoin current_url href) ||
       pyStartsWith "https://" (ctx.urljoin current_url href)) then none
  else if cleanUrl (ctx.urlparse (ctx.urljoin current_url href)) ∈ visited then none
  else if (ctx.urlparse (ctx.urljoin current_url href)).netloc ≠ base_domain then none
  else if denyExts.any
      (fun ext => pyEndsWith ext (cleanUrl (ctx.urlparse (ctx.urljoin current_url href)))) then none
  else some (cleanUrl (ctx.urlparse (ctx.urljoin current_url href)))

/-- The whole link-discovery loop (`scrape_website` lines 70-98): every
accepted link is added to the visited set at that moment and collected (in
order) for enqueueing.  Returns the updated visited set and the accepted
clean URLs. -/
def enqueueLinks (ctx : Ctx) (base_domain current_url : String) :
    List String → List String → List String × List String
  | [], visited => (visited, [])
  | href :: hs, visited =>
    match linkAccept ctx base_domain current_url visited href with
    | none => enqueueLinks ctx base_domain current_url hs visited
    | some clean_url =>
      let res := enqueueLinks ctx base_domain current_url hs (visited ++ [clean_url])
      (res.1, clean_url :: res.2)

/-- Processing of one dequeued URL up to link discovery (`scrape_website`
lines 39-66 plus the `soup.find_all('a', href=True)` scan): `none` models any
exception caught by the per-page handler (fetch failure, non-2xx status, or
an extractor exception); `some (record, hrefs)` is the constructed
`page_data` and the hrefs available for discovery. -/
def processPage (ctx : Ctx) (u : String) : Option (PageRecord × List String) :=
  match fetchDoc ctx.web u with
  | none => none
  | some doc =>
    match extract_title doc with
    | none => none
    | some title =>
      let date := extract_date doc
      match extract_content doc with
      | none => none
      | some content =>
        some ({ title := title, date := date, link := u, content := content }, pageLinks doc)

/-- An upper bound on the number of hrefs any fetchable page offers; used
only for the termination measure of the crawl loop. -/
def maxLinksBound (ctx : Ctx) : Nat :=
  (ctx.web.map (fun p => (pageLinks p.2).length)).foldr Nat.max 0

/-- Weight of a frontier entry at depth `d` for the termination measure. -/
def entryWeight (L c d : Nat) : Nat := L ^ (c + 1 - d)

/-- Termination measure of the crawl loop: total weight of the frontier. -/
def queueMeasure (L c : Nat) (q : List (String × Nat)) : Nat :=
  (q.map (fun e => entryWeight L c e.2)).sum

lemma le_foldr_max (l : List Nat) (x : Nat) (hx : x ∈ l) : x ≤ l.foldr Nat.max 0 := by
  induction l with
  | nil => cases hx
  | cons a t ih =>
    rcases List.mem_cons.mp hx with h | h
    · subst h; exact Nat.le_max_left _ _
    · exact le_trans (ih h) (Nat.le_max_right _ _)

lemma enqueueLinks_length_le (ctx : Ctx) (base_domain current_url : String) :
    ∀ (hrefs visited : List String),
      (enqueueLinks ctx base_domain current_url hrefs visited).2.length ≤ hrefs.length := by
  intro hrefs
  induction hrefs with
  | nil => intro visited; simp [enqueueLinks]
  | cons href hs ih =>
    intro visited
    simp only [enqueueLinks]
    cases linkAccept ctx base_domain current_url visited href with
    | none => exact le_trans (ih visited) (Nat.le_succ _)
    | some clean_url =>
      simpa using Nat.succ_le_succ (ih (visited ++ [clean_url]))

lemma processPage_links_le (ctx : Ctx) (u : String) (pr : PageRecord × List String)
    (hp : processPage ctx u = some pr) : pr.2.length ≤ maxLinksBound ctx := by
  unfold processPage at hp
  cases hf : fetchDoc ctx.web u with
  | none => rw [hf] at hp; exact absurd hp (by simp)
  | some doc =>
    rw [hf] at hp
    dsimp only at hp
    have hmem : (pageLinks doc).length ∈ ctx.web.map (fun p => (pageLinks p.2).length) := by
      unfold fetchDoc at hf
      cases hfind : ctx.web.find? (fun p => p.1 == u) with
      | none => rw [hfind] at hf; exact absurd hf (by simp)
      | some pair =>
        rw [hfind] at hf
        have hpair : pair.2 = doc := by simpa using hf
        have : pair ∈ ctx.web := List.mem_of_find?_eq_some hfind
        exact hpair ▸ List.mem_map_of_mem (fun p => (pageLinks p.2).length) this
    have hle : (pageLinks doc).length ≤ maxLinksBound ctx := le_foldr_max _ _ hmem
    cases ht : extract_title doc with
    | none => rw [ht] at hp; exact absurd hp (by simp)
    | some title =>
      rw [ht] at hp
      dsimp only at hp
      cases hc : extract_content doc with
      | none => rw [hc] at hp; exact absurd hp (by simp)
      | some content =>
        rw [hc] at hp
        dsimp only at hp
        have : pr.2 = pageLinks doc := by
          have := (Option.some.injEq _ _).mp hp
          rw [← this]
        rw [this]; exact hle

lemma queueMeasure_cons (L c : Nat) (e : String × Nat) (q : List (String × Nat)) :
    queueMeasure L c (e :: q) = entryWeight L c e.2 + queueMeasure L c q := by
  simp [queueMeasure]

lemma queueMeasure_append (L c : Nat) (q1 q2 : List (String × Nat)) :
    queueMeasure L c (q1 ++ q2) = queueMeasure L c q1 + queueMeasure L c q2 := by
  simp [queueMeasure]

lemma queueMeasure_map_depth (L c d : Nat) (us : List String) :
    queueMeasure L c (us.map (fun u => (u, d))) = us.length * entryWeight L c d := by
  induction us with
  | nil => simp [queueMeasure]
  | cons a t ih =>
    simp only [List.map_cons, queueMeasure_cons, ih, List.length_cons]
    ring

lemma measure_tail_lt (L c : Nat) (hL : 0 < L) (u : String) (d : Nat)
    (rest : List (String × Nat)) :
    queueMeasure L c rest < queueMeasure L c ((u, d) :: rest) := by
  rw [queueMeasure_cons]
  dsimp only
  have : 0 < entryWeight L c d := Nat.pos_pow_of_pos _ hL
  omega

lemma measure_step_lt (L c : Nat) (hL : 0 < L) (u : String) (d : Nat)
    (rest : List (String × Nat)) (us : List String)
    (hd : d < c) (hk : us.length < L) :
    queueMeasure L c (rest ++ us.map (fun u2 => (u2, d + 1))) <
      queueMeasure L c ((u, d) :: rest) := by
  rw [queueMeasure_append, queueMeasure_map_depth, queueMeasure_cons]
  dsimp only
  have hexp : c + 1 - d = (c + 1 - (d + 1)) + 1 := by omega
  have hw : entryWeight L c d = entryWeight L c (d + 1) * L := by
    unfold entryWeight
    rw [hexp, pow_succ]
  have hpos : 0 < entryWeight L c (d + 1) := Nat.pos_pow_of_pos _ hL
  have hlt : us.length * entryWeight L c (d + 1) < entryWeight L c d := by
    rw [hw]
    calc us.length * entryWeight L c (d + 1) < L * entryWeight L c (d + 1) :=
          Nat.mul_lt_mul_of_lt_of_le hk (le_refl _) hpos
      _ = entryWeight L c (d + 1) * L := Nat.mul_comm _ _
  omega

/-- The crawl loop of `scrape_website` (lines 36-101): dequeue, process the
page, append its record, and — only when `depth < max_depth` and the page
budget is not yet reached — discover and enqueue its links.  Any per-page
exception (modelled by `processPage _ _ = none`) abandons the entry without
retry and the loop continues. -/
def crawlLoop (ctx : Ctx) (base_domain : String) (queue : List (String × Nat))
    (visited : List String) (results : List PageRecord) : List PageRecord :=
  match queue with
  | [] => results
  | (u, d) :: rest =>
    if hlen : results.length < ctx.max_pages then
      match hp : processPage ctx u with
      | none => crawlLoop ctx base_domain rest visited results
      | some pr =>
        if hgd : d < ctx.max_depth ∧ (results ++ [pr.1]).length < ctx.max_pages then
          crawlLoop ctx base_domain
            (rest ++ ((enqueueLinks ctx base_domain u pr.2 visited).2.map (fun c2 => (c2, d + 1))))
            (enqueueLinks ctx base_domain u pr.2 visited).1
            (results ++ [pr.1])
        else
          crawlLoop ctx base_domain rest visited (results ++ [pr.1])
    else results
termination_by queueMeasure (maxLinksBound ctx + 1) ctx.max_depth queue
decreasing_by
  · exact measure_tail_lt _ _ (Nat.succ_pos _) u d rest
  · exact measure_step_lt _ _ (Nat.succ_pos _) u d rest _ hgd.1
      (Nat.lt_succ_of_le (le_trans (enqueueLinks_length_le ctx base_domain u pr.2 visited)
        (processPage_links_le ctx u pr hp)))
  · exact measure_tail_lt _ _ (Nat.succ_pos _) u d rest

/-- `scrape_website` (scraper.py lines 16-109), up to the Result Sink: the
base domain is the netloc of the seed, the frontier starts with the seed at
depth 0, the visited set starts as the seed, and the accumulated Result list
is returned (and written) unconditionally. -/
def scrape_website (ctx : Ctx) (url : String) : List PageRecord :=
  let base_domain := (ctx.urlparse url).netloc
  crawlLoop ctx base_domain [(url, 0)] [url] []

lemma crawlLoop_nil (ctx : Ctx) (base : String) (v : List String) (r : List PageRecord) :
    crawlLoop ctx base [] v r = r := by
  rw [crawlLoop]

lemma crawlLoop_stop (ctx : Ctx) (base u : String) (d : Nat) (rest : List (String × Nat))
    (v : List String) (r : List PageRecord) (hlen : ¬ r.length < ctx.max_pages) :
    crawlLoop ctx base ((u, d) :: rest) v r = r := by
  conv_lhs => rw [crawlLoop.eq_def]
  dsimp only
  rw [dif_neg hlen]

lemma crawlLoop_skip (ctx : Ctx) (base u : String) (d : Nat) (rest : List (String × Nat))
    (v : List String) (r : List PageRecord) (hp : processPage ctx u = none) :
    crawlLoop ctx base ((u, d) :: rest) v r = crawlLoop ctx base rest v r := by
  by_cases hlen : r.length < ctx.max_pages
  · conv_lhs => rw [crawlLoop.eq_def]
    dsimp only
    rw [dif_pos hlen]
    split
    · rfl
    · rename_i pr heq
      rw [hp] at heq
      cases heq
  · rw [crawlLoop_stop ctx base u d rest v r hlen]
    cases rest with
    | nil => rw [crawlLoop_nil]
    | cons e t =>
      rw [crawlLoop.eq_def]
      cases e with
      | mk u2 d2 =>
        dsimp only
        rw [dif_neg hlen]

lemma crawlLoop_record_enqueue (ctx : Ctx) (base u : String) (d : Nat)
    (rest : List (String × Nat)) (v : List String) (r : List PageRecord)
    (pr : PageRecord × List String) (hp : processPage ctx u = some pr)
    (hlen : r.length < ctx.max_pages)
    (hgd : d < ctx.max_depth ∧ (r ++ [pr.1]).length < ctx.max_pages) :
    crawlLoop ctx base ((u, d) :: rest) v r =
      crawlLoop ctx base
        (rest ++ ((enqueueLinks ctx base u pr.2 v).2.map (fun c2 => (c2, d + 1))))
        (enqueueLinks ctx base u pr.2 v).1 (r ++ [pr.1]) := by
  conv_lhs => rw [crawlLoop.eq_def]
  dsimp only
  rw [dif_pos hlen]
  split
  · rename_i heq
    rw [hp] at heq
    cases heq
  · rename_i pr2 heq
    rw [hp] at heq
    cases heq
    rw [dif_pos hgd]

lemma crawlLoop_record_only (ctx : Ctx) (base u : String) (d : Nat)
    (rest : List (String × Nat)) (v : List String) (r : List PageRecord)
    (pr : PageRecord × List String) (hp : processPage ctx u = some pr)
    (hlen : r.length < ctx.max_pages)
    (hgd : ¬ (d < ctx.max_depth ∧ (r ++ [pr.1]).length < ctx.max_pages)) :
    crawlLoop ctx base ((u, d) :: rest) v r = crawlLoop ctx base rest v (r ++ [pr.1]) := by
  conv_lhs => rw [crawlLoop.eq_def]
  dsimp only
  rw [dif_pos hlen]
  split
  · rename_i heq
    rw [hp] at heq
    cases heq
  · rename_i pr2 heq
    rw [hp] at heq
    cases heq
    rw [dif_neg hgd]

lemma crawlLoop_length_le (ctx : Ctx) (base : String) (queue : List (String × Nat))
    (visited : List String) (results : List PageRecord)
    (h : results.length ≤ ctx.max_pages) :
    (crawlLoop ctx base queue visited results).length ≤ ctx.max_pages := by
  induction queue, visited, results using crawlLoop.induct ctx base with
  | case1 v r => rw [crawlLoop_nil]; exact h
  | case2 v r u d rest hlen hp ih =>
    rw [crawlLoop_skip ctx base u d rest v r hp]
    exact ih h
  | case3 v r u d rest hlen pr hp hgd ih =>
    rw [crawlLoop_record_enqueue ctx base u d rest v r pr hp hlen hgd]
    exact ih (le_of_lt hgd.2)
  | case4 v r u d rest hlen pr hp hgd ih =>
    rw [crawlLoop_record_only ctx base u d rest v r pr hp hlen hgd]
    exact ih (by simpa using Nat.succ_le_of_lt hlen)
  | case5 v r u d rest hlen =>
    rw [crawlLoop_stop ctx base u d rest v r hlen]
    exact h

lemma linkAccept_not_mem (ctx : Ctx) (base cur : String) (visited : List String)
    (href clean : String) (h : linkAccept ctx base cur visited href = some clean) :
    clean ∉ visited := by
  unfold linkAccept at h
  split at h
  · cases h
  · split at h
    · cases h
    · split at h
      · cases h
      · split at h
        · cases h
        · rename_i hmem _ _
          cases h
          exact hmem

lemma linkAccept_netloc (ctx : Ctx) (base cur : String) (visited : List String)
    (href clean : String) (h : linkAccept ctx base cur visited href = some clean) :
    (ctx.urlparse (ctx.urljoin cur href)).netloc = base := by
  unfold linkAccept at h
  split at h
  · cases h
  · split at h
    · cases h
    · split at h
      · cases h
      · split at h
        · cases h
        · rename_i hnet _
          exact not_not.mp hnet

lemma linkAccept_ext (ctx : Ctx) (base cur : String) (visited : List String)
    (href clean : String) (h : linkAccept ctx base cur visited href = some clean) :
    denyExts.all (fun ext => !(pyEndsWith ext clean)) = true := by
  unfold linkAccept at h
  split at h
  · cases h
  · split at h
    · cases h
    · split at h
      · cases h
      · split at h
        · cases h
        · rename_i hext
          cases h
          simp only [List.all_eq_true, Bool.not_eq_true']
          intro ext hmem
          by_contra hcontra
          exact hext (List.any_eq_true.mpr ⟨ext, hmem, by simpa using hcontra⟩)

lemma enqueueLinks_visited_eq (ctx : Ctx) (base cur : String) :
    ∀ (hrefs visited : List String),
      (enqueueLinks ctx base cur hrefs visited).1 =
        visited ++ (enqueueLinks ctx base cur hrefs visited).2 := by
  intro hrefs
  induction hrefs with
  | nil => intro visited; simp [enqueueLinks]
  | cons href hs ih =>
    intro visited
    simp only [enqueueLinks]
    cases hacc : linkAccept ctx base cur visited href with
    | none => exact ih visited
    | some clean =>
      dsimp only
      rw [ih (visited ++ [clean])]
      simp

lemma enqueueLinks_not_mem (ctx : Ctx) (base cur : String) :
    ∀ (hrefs visited : List String) (c : String),
      c ∈ (enqueueLinks ctx base cur hrefs visited).2 → c ∉ visited := by
  intro hrefs
  induction hrefs with
  | nil => intro visited c hc; simp [enqueueLinks] at hc
  | cons href hs ih =>
    intro visited c hc
    simp only [enqueueLinks] at hc
    cases hacc : linkAccept ctx base cur visited href with
    | none =>
      rw [hacc] at hc
      exact ih visited c hc
    | some clean =>
      rw [hacc] at hc
      dsimp only at hc
      rcases List.mem_cons.mp hc with hceq | hcmem
      · subst hceq
        exact linkAccept_not_mem ctx base cur visited href c hacc
      · intro hcv
        exact ih (visited ++ [clean]) c hcmem (List.mem_append_left _ hcv)

lemma enqueueLinks_nodup (ctx : Ctx) (base cur : String) :
    ∀ (hrefs visited : List String), (enqueueLinks ctx base cur hrefs visited).2.Nodup := by
  intro hrefs
  induction hrefs with
  | nil => intro visited; simp [enqueueLinks]
  | cons href hs ih =>
    intro visited
    simp only [enqueueLinks]
    cases hacc : linkAccept ctx base cur visited href with
    | none => exact ih visited
    | some clean =>
      dsimp only
      refine List.nodup_cons.mpr ⟨?_, ih (visited ++ [clean])⟩
      intro hmem
      exact enqueueLinks_not_mem ctx base cur hs (visited ++ [clean]) clean hmem
        (List.mem_append_right _ (List.mem_singleton.mpr rfl))

lemma strFoldlAppend (l : List String) : ∀ a : String,
    l.foldl (fun x y => x ++ y) a = a ++ l.foldl (fun x y => x ++ y) "" := by
  induction l with
  | nil => intro a; simp [String.append_empty]
  | cons s t ih =>
    intro a
    simp only [List.foldl_cons]
    rw [ih (a ++ s), ih ("" ++ s), String.empty_append, String.append_assoc]

lemma stringJoin_cons (s : String) (l : List String) :
    String.join (s :: l) = s ++ String.join l := by
  unfold String.join
  simp only [List.foldl_cons]
  rw [strFoldlAppend l ("" ++ s), String.empty_append]

/-- The claim-side description of the body-text concatenation: the stripped
text of every paragraph, in order, each nonempty one followed by a blank
line. -/
def paragraphsJoin (texts : List String) : String :=
  String.join (((texts.map pyStrip).filter (fun t => ¬ t = "")).map (fun t => t ++ "\n\n"))

lemma foldl_paraStep_eq (ps : List Node) : ∀ acc : String,
    ps.foldl paraStep acc = acc ++ paragraphsJoin (ps.map getText) := by
  induction ps with
  | nil =>
    intro acc
    simp [paragraphsJoin, String.join, String.append_empty]
  | cons p t ih =>
    intro acc
    by_cases h : pyStrip (getText p) = ""
    · have hstep : paraStep acc p = acc := by simp [paraStep, h]
      simp only [List.foldl_cons, hstep, List.map_cons]
      rw [ih acc]
      have : paragraphsJoin (getText p :: t.map getText) = paragraphsJoin (t.map getText) := by
        simp [paragraphsJoin, h]
      rw [this]
    · have hstep : paraStep acc p = acc ++ (pyStrip (getText p) ++ "\n\n") := by
        simp [paraStep, h]
      simp only [List.foldl_cons, hstep, List.map_cons]
      rw [ih]
      have : paragraphsJoin (getText p :: t.map getText) =
          (pyStrip (getText p) ++ "\n\n") ++ paragraphsJoin (t.map getText) := by
        simp only [paragraphsJoin, List.map_cons, List.filter_cons]
        rw [if_pos (by simpa using h)]
        simp only [List.map_cons]
        rw [stringJoin_cons]
      rw [this, String.append_assoc]

lemma extract_content_eq (soup c : Node)
    (h : contentContainer (removeTags unwantedTags soup) = some c) :
    extract_content soup = some (
      if pyStrip (paragraphsJoin ((c.findAll (isTag "p")).map getText)) = ""
      then pyStrip (getText c)
      else paragraphsJoin ((c.findAll (isTag "p")).map getText)) := by
  unfold extract_content
  rw [h]
  dsimp only
  have hfold : (c.findAll (isTag "p")).foldl paraStep "" =
      paragraphsJoin ((c.findAll (isTag "p")).map getText) := by
    rw [foldl_paraStep_eq, String.empty_append]
  rw [hfold]

/-- A concrete `urlparse` instantiation for examples: scheme, then netloc up
to the first slash, then the path (queries and fragments absent). -/
def toyParseRest (scheme : String) (rest : List Char) : ParsedUrl :=
  { scheme := scheme,
    netloc := ⟨rest.takeWhile (fun ch => ch ≠ '/')⟩,
    path := ⟨rest.dropWhile (fun ch => ch ≠ '/')⟩ }

/-- A concrete `urlparse` for example contexts. -/
def toyParse (s : String) : ParsedUrl :=
  if pyStartsWith "http://" s then toyParseRest "http" (s.data.drop 7)
  else if pyStartsWith "https://" s then toyParseRest "https" (s.data.drop 8)
  else { scheme := "", netloc := "", path := s }

/-- A concrete `urljoin` for example contexts: absolute hrefs pass through. -/
def toyJoin (base href : String) : String :=
  if pyStartsWith "http://" href || pyStartsWith "https://" href then href else base ++ href

/-- Example crawl context built from a web and the two bounds. -/
def mkCtx (web : List (String × Node)) (mp md : Nat) : Ctx :=
  { urljoin := toyJoin, urlparse := toyParse, web := web, max_pages := mp, max_depth := md }

/-- Document with a single `<h1>Hello</h1>` and no other metadata. -/
def helloDoc : Node :=
  .elem "[document]" [] [.elem "html" [] [.elem "body" [] [.elem "h1" [] [.text "Hello"]]]]

/-- Document with no `<h1>` and a `<meta property="og:title">`. -/
def metaTitleDoc : Node :=
  .elem "[document]" [] [.elem "html" [] [
    .elem "head" [] [.elem "meta" [("property", "og:title"), ("content", "Meta Title")] []],
    .elem "body" [] [.elem "p" [] [.text "x"]]]]

/-- Document whose first `<h1>` is present but blank, with both og:title and
`<title>` fallbacks available. -/
def blankH1Doc : Node :=
  .elem "[document]" [] [.elem "html" [] [
    .elem "head" [] [.elem "meta" [("property", "og:title"), ("content", "Meta Title")] [],
                     .elem "title" [] [.text "Real Title"]],
    .elem "body" [] [.elem "h1" [] [.text "   "]]]]

/-- Document whose `<h1>` is blank and whose `<title>` is nonempty. -/
def blankH1TitleDoc : Node :=
  .elem "[document]" [] [.elem "html" [] [
    .elem "head" [] [.elem "title" [] [.text "Fallback Title"]],
    .elem "body" [] [.elem "h1" [] [.text "  "]]]]

/-- Document whose body holds three `<p>` tags with texts "A", "", "B". -/
def abDoc : Node :=
  .elem "[document]" [] [.elem "html" [] [.elem "body" [] [
    .elem "p" [] [.text "A"], .elem "p" [] [], .elem "p" [] [.text "B"]]]]

/-- Document with none of the container selectors and no `<body>`. -/
def noBodyDoc : Node :=
  .elem "[document]" [] [.elem "html" [] [.elem "div" [] [.text "hello"]]]

/-- A page with one paragraph and no links. -/
def simplePage : Node :=
  .elem "[document]" [] [.elem "html" [] [.elem "body" [] [.elem "p" [] [.text "A"]]]]

/-- A page with one paragraph and one same-domain link. -/
def seedLinkPage : Node :=
  .elem "[document]" [] [.elem "html" [] [.elem "body" [] [
    .elem "p" [] [.text "A"],
    .elem "a" [("href", "http://e.com/p2")] [.text "next"]]]]

/-- The record produced for a page shaped like `simplePage` fetched at `u`. -/
def recA (u : String) : PageRecord :=
  { title := "Unknown Title", date := "Unknown Date", link := u, content := "A\n\n" }

/-- Context for the C2 witness: a one-page web with `max_pages = 1`. -/
def ctxW : Ctx := mkCtx [("http://e.com/", simplePage)] 1 2

/-- Context for the C3 witness: a seed page with one discoverable link. -/
def ctx3 : Ctx := mkCtx [("http://e.com/", seedLinkPage)] 10 2

/-- Context for the filter examples: the web content is irrelevant. -/
def ctxF : Ctx := mkCtx [] 1 1

/-- Context for the C9 witness: an empty web, every fetch raises. -/
def ctx9 : Ctx := mkCtx [] 5 2

/-- Context for C10: the seed document has no container and no body. -/
def ctx10 : Ctx := mkCtx [("http://e.com/nobody", noBodyDoc), ("http://e.com/ok", simplePage)] 5 2

/-- C1 (counterexample): for the document `blankH1Doc`, whose first `<h1>`
exists with whitespace-only text, `extract_title` returns the placeholder
`"Unknown Title"` — not the empty string the claim asserts, and not any
fallback value. -/
theorem claim1_counterexample :
    extract_title blankH1Doc = some "Unknown Title" ∧
    extract_title blankH1Doc ≠ some "" ∧
    extract_title blankH1Doc ≠ some "Meta Title" ∧
    extract_title blankH1Doc ≠ some "Real Title" :=
  ⟨rfl, by decide, by decide, by decide⟩

/-- C1 (amended): for every document whose first `<h1>` exists but whose
stripped text is empty, `extract_title` does not fall back to og:title or
`<title>` (the h1 branch is committed to), but the final `or` coalescing
substitutes the literal `"Unknown Title"` for the empty string. -/
theorem claim1_blank_h1_unknown_title (doc h1 : Node)
    (hfind : doc.find (isTag "h1") = some h1)
    (hblank : pyStrip (getText h1) = "") :
    extract_title doc = some "Unknown Title" := by
  unfold extract_title
  rw [hfind]
  dsimp only
  rw [hblank]
  rfl

/-- C1 (witness): the amended theorem applied to `blankH1Doc`. -/
theorem claim1_witness : extract_title blankH1Doc = some "Unknown Title" :=
  claim1_blank_h1_unknown_title blankH1Doc (.elem "h1" [] [.text "   "]) rfl rfl

/-- C2: for every crawl context and seed URL the Result list never exceeds
`max_pages`; moreover link enqueueing is gated by the Result length at
discovery time, so the page whose record reaches `max_pages` enqueues no
links — the frontier and the visited set continue unchanged. -/
theorem claim2_result_bounded :
    (∀ (ctx : Ctx) (url : String), (scrape_website ctx url).length ≤ ctx.max_pages) ∧
    (∀ (ctx : Ctx) (base u : String) (d : Nat) (rest : List (String × Nat))
        (v : List String) (r : List PageRecord) (pr : PageRecord × List String),
      r.length < ctx.max_pages →
      processPage ctx u = some pr →
      (r ++ [pr.1]).length = ctx.max_pages →
      crawlLoop ctx base ((u, d) :: rest) v r = crawlLoop ctx base rest v (r ++ [pr.1])) := by
  constructor
  · intro ctx url
    exact crawlLoop_length_le ctx ((ctx.urlparse url).netloc) [(url, 0)] [url] [] (Nat.zero_le _)
  · intro ctx base u d rest v r pr hlen hp hfull
    exact crawlLoop_record_only ctx base u d rest v r pr hp hlen (fun hgd => by omega)

/-- C2 (witness): with a one-page web and `max_pages = 1`, the step that
records the first page enqueues nothing. -/
theorem claim2_witness :
    crawlLoop ctxW "e.com" [("http://e.com/", 0)] ["http://e.com/"] [] =
      crawlLoop ctxW "e.com" [] ["http://e.com/"] [recA "http://e.com/"] :=
  claim2_result_bounded.2 ctxW "e.com" "http://e.com/" 0 [] ["http://e.com/"] []
    (recA "http://e.com/", []) (by decide) rfl rfl

/-- C3: the seed is enqueued at depth 0; a dequeued entry at depth `d`
(with the budget open) enqueues its accepted links at depth `d + 1`, and only
when `d < max_depth`, so every enqueued entry has depth at most `max_depth`;
an entry at depth `max_depth` (or beyond) causes no enqueues at all. -/
theorem claim3_depth_bounded :
    (∀ (ctx : Ctx) (url : String),
      scrape_website ctx url = crawlLoop ctx (ctx.urlparse url).netloc [(url, 0)] [url] []) ∧
    (∀ (ctx : Ctx) (base u : String) (d : Nat) (rest : List (String × Nat))
        (v : List String) (r : List PageRecord) (pr : PageRecord × List String),
      processPage ctx u = some pr →
      r.length < ctx.max_pages → d < ctx.max_depth → (r ++ [pr.1]).length < ctx.max_pages →
      crawlLoop ctx base ((u, d) :: rest) v r =
        crawlLoop ctx base
          (rest ++ ((enqueueLinks ctx base u pr.2 v).2.map (fun c2 => (c2, d + 1))))
          (enqueueLinks ctx base u pr.2 v).1 (r ++ [pr.1]) ∧
      ∀ e ∈ (enqueueLinks ctx base u pr.2 v).2.map (fun c2 => (c2, d + 1)),
        e.2 = d + 1 ∧ e.2 ≤ ctx.max_depth) ∧
    (∀ (ctx : Ctx) (base u : String) (d : Nat) (rest : List (String × Nat))
        (v : List String) (r : List PageRecord) (pr : PageRecord × List String),
      processPage ctx u = some pr →
      r.length < ctx.max_pages → ¬ d < ctx.max_depth →
      crawlLoop ctx base ((u, d) :: rest) v r = crawlLoop ctx base rest v (r ++ [pr.1])) := by
  refine ⟨fun ctx url => rfl, ?_, ?_⟩
  · intro ctx base u d rest v r pr hp hlen hd hlen2
    refine ⟨crawlLoop_record_enqueue ctx base u d rest v r pr hp hlen ⟨hd, hlen2⟩, ?_⟩
    intro e he
    obtain ⟨c2, _, rfl⟩ := List.mem_map.mp he
    exact ⟨rfl, Nat.succ_le_of_lt hd⟩
  · intro ctx base u d rest v r pr hp hlen hd
    exact crawlLoop_record_only ctx base u d rest v r pr hp hlen (fun hgd => hd hgd.1)

/-- C3 (witness): a seed page at depth 0 whose one link is enqueued at
depth 1, below `max_depth = 2`. -/
theorem claim3_witness :
    crawlLoop ctx3 "e.com" [("http://e.com/", 0)] ["http://e.com/"] [] =
      crawlLoop ctx3 "e.com"
        ((enqueueLinks ctx3 "e.com" "http://e.com/" ["http://e.com/p2"] ["http://e.com/"]).2.map
          (fun c2 => (c2, 1)))
        (enqueueLinks ctx3 "e.com" "http://e.com/" ["http://e.com/p2"] ["http://e.com/"]).1
        [recA "http://e.com/"] ∧
    ∀ e ∈ (enqueueLinks ctx3 "e.com" "http://e.com/" ["http://e.com/p2"] ["http://e.com/"]).2.map
        (fun c2 => (c2, 1)),
      e.2 = 1 ∧ e.2 ≤ ctx3.max_depth :=
  claim3_depth_bounded.2.1 ctx3 "e.com" "http://e.com/" 0 [] ["http://e.com/"] []
    (recA "http://e.com/", ["http://e.com/p2"]) rfl (by decide) (by decide) (by decide)

/-- C4: the link-discovery loop adds a URL to the visited set exactly when it
is accepted into the frontier (the final visited set is the old one plus the
accepted URLs, in order); an accepted URL is never one already in the visited
set; and the accepted URLs of one discovery pass are pairwise distinct — so
the same normalized URL is never enqueued as two frontier entries. -/
theorem claim4_dedup :
    (∀ (ctx : Ctx) (base cur : String) (hrefs visited : List String),
      (enqueueLinks ctx base cur hrefs visited).1 =
        visited ++ (enqueueLinks ctx base cur hrefs visited).2) ∧
    (∀ (ctx : Ctx) (base cur : String) (hrefs visited : List String) (c : String),
      c ∈ (enqueueLinks ctx base cur hrefs visited).2 → c ∉ visited) ∧
    (∀ (ctx : Ctx) (base cur : String) (hrefs visited : List String),
      (enqueueLinks ctx base cur hrefs visited).2.Nodup) :=
  ⟨fun ctx base cur hrefs visited => enqueueLinks_visited_eq ctx base cur hrefs visited,
   fun ctx base cur hrefs visited c => enqueueLinks_not_mem ctx base cur hrefs visited c,
   fun ctx base cur hrefs visited => enqueueLinks_nodup ctx base cur hrefs visited⟩

/-- C4 (witness): a concretely accepted URL was not in the visited set. -/
theorem claim4_witness : "http://example.com/a" ∉ (["http://example.com/z"] : List String) :=
  claim4_dedup.2.1 ctxF "example.com" "http://example.com/" ["http://example.com/a"]
    ["http://example.com/z"] "http://example.com/a" (by decide)

/-- C5: an accepted link has the netloc of its resolved URL exactly
string-equal to the base domain, and a subdomain link
(`http://blog.example.com/x` against base `example.com`) is rejected. -/
theorem claim5_same_domain :
    (∀ (ctx : Ctx) (base cur : String) (visited : List String) (href clean : String),
      linkAccept ctx base cur visited href = some clean →
      (ctx.urlparse (ctx.urljoin cur href)).netloc = base) ∧
    linkAccept ctxF "example.com" "http://example.com/" [] "http://blog.example.com/x" = none :=
  ⟨fun ctx base cur visited href clean h => linkAccept_netloc ctx base cur visited href clean h,
   rfl⟩

/-- C5 (witness): a concretely accepted link's host equals the base domain. -/
theorem claim5_witness :
    (ctxF.urlparse (ctxF.urljoin "http://example.com/" "http://example.com/ok")).netloc =
      "example.com" :=
  claim5_same_domain.1 ctxF "example.com" "http://example.com/" [] "http://example.com/ok"
    "http://example.com/ok" rfl

/-- C6: an accepted link ends in none of `.pdf`, `.jpg`, `.png`, `.gif`
(case-sensitive suffix test); a lowercase `.pdf` link is rejected while an
uppercase `.PDF` link passes the denylist and is accepted. -/
theorem claim6_denylist :
    (∀ (ctx : Ctx) (base cur : String) (visited : List String) (href clean : String),
      linkAccept ctx base cur visited href = some clean →
      denyExts.all (fun ext => !(pyEndsWith ext clean)) = true) ∧
    linkAccept ctxF "example.com" "http://example.com/" [] "http://example.com/a.pdf" = none ∧
    linkAccept ctxF "example.com" "http://example.com/" [] "http://example.com/a.PDF" =
      some "http://example.com/a.PDF" :=
  ⟨fun ctx base cur visited href clean h => linkAccept_ext ctx base cur visited href clean h,
   rfl, rfl⟩

/-- C6 (witness): a concretely accepted link satisfies the denylist test. -/
theorem claim6_witness :
    denyExts.all (fun ext => !(pyEndsWith ext "http://example.com/ok")) = true :=
  claim6_denylist.1 ctxF "example.com" "http://example.com/" [] "http://example.com/ok"
    "http://example.com/ok" rfl

/-- C7 (counterexample): `blankH1TitleDoc` has an `<h1>` (with blank text),
but the extracted title is the literal `"Unknown Title"`, not the h1 text
(neither raw nor stripped) that the claimed chain prescribes. -/
theorem claim7_counterexample :
    blankH1TitleDoc.find (isTag "h1") = some (.elem "h1" [] [.text "  "]) ∧
    extract_title blankH1TitleDoc = some "Unknown Title" ∧
    extract_title blankH1TitleDoc ≠ some (getText (Node.elem "h1" [] [.text "  "])) ∧
    extract_title blankH1TitleDoc ≠ some (pyStrip (getText (Node.elem "h1" [] [.text "  "]))) ∧
    extract_title blankH1TitleDoc ≠ some "Fallback Title" :=
  ⟨rfl, rfl, by decide, by decide, by decide⟩

/-- C7 (amended): title extraction commits to the first present branch —
`<h1>` text, else og:title content (when the content attribute exists), else
`<title>` text — strips it, and returns it when nonempty; a blank selected
candidate, or no present branch, yields the literal `"Unknown Title"`.  In
particular the `"Hello"` and `"Meta Title"` examples hold. -/
theorem claim7_fallback_chain :
    (∀ (doc h1 : Node), doc.find (isTag "h1") = some h1 →
      extract_title doc = some (pyOr (some (pyStrip (getText h1))) "Unknown Title")) ∧
    (∀ (doc m : Node) (c2 : String), doc.find (isTag "h1") = none →
      doc.find (metaProp "og:title") = some m → getAttr "content" m = some c2 →
      extract_title doc = some (pyOr (some (pyStrip c2)) "Unknown Title")) ∧
    (∀ (doc t : Node), doc.find (isTag "h1") = none →
      doc.find (metaProp "og:title") = none → doc.find (isTag "title") = some t →
      extract_title doc = some (pyOr (some (pyStrip (getText t))) "Unknown Title")) ∧
    (∀ (doc : Node), doc.find (isTag "h1") = none →
      doc.find (metaProp "og:title") = none → doc.find (isTag "title") = none →
      extract_title doc = some "Unknown Title") ∧
    extract_title helloDoc = some "Hello" ∧
    extract_title metaTitleDoc = some "Meta Title" := by
  refine ⟨?_, ?_, ?_, ?_, rfl, rfl⟩
  · intro doc h1 h
    unfold extract_title
    rw [h]
  · intro doc m c2 h1 h2 h3
    unfold extract_title
    rw [h1]
    dsimp only
    rw [h2]
    dsimp only
    rw [h3]
  · intro doc t h1 h2 h3
    unfold extract_title
    rw [h1]
    dsimp only
    rw [h2]
    dsimp only
    rw [h3]
  · intro doc h1 h2 h3
    unfold extract_title
    rw [h1]
    dsimp only
    rw [h2]
    dsimp only
    rw [h3]
    rfl

/-- C7 (witness): the og:title branch applied to `metaTitleDoc`. -/
theorem claim7_witness :
    extract_title metaTitleDoc = some (pyOr (some (pyStrip "Meta Title")) "Unknown Title") :=
  claim7_fallback_chain.2.1 metaTitleDoc
    (.elem "meta" [("property", "og:title"), ("content", "Meta Title")] []) "Meta Title"
    rfl rfl rfl

/-- C8: whenever a content container is selected (after the in-place
decomposition), the extracted body is the stripped text of every `<p>`
descendant in document order, each nonempty one followed by a double newline
(empty paragraphs skipped), falling back to the container's full stripped
text when that concatenation is empty; on the concrete "A", "", "B" document
the result is exactly `"A\n\nB\n\n"`. -/
theorem claim8_content :
    (∀ (soup c : Node), contentContainer (removeTags unwantedTags soup) = some c →
      extract_content soup = some (
        if pyStrip (paragraphsJoin ((c.findAll (isTag "p")).map getText)) = ""
        then pyStrip (getText c)
        else paragraphsJoin ((c.findAll (isTag "p")).map getText))) ∧
    extract_content abDoc = some "A\n\nB\n\n" :=
  ⟨fun soup c h => extract_content_eq soup c h, rfl⟩

/-- C8 (witness): the characterization applied to the concrete document. -/
theorem claim8_witness : extract_content abDoc = some "A\n\nB\n\n" :=
  claim8_content.1 abDoc
    (.elem "body" [] [.elem "p" [] [.text "A"], .elem "p" [] [], .elem "p" [] [.text "B"]]) rfl

/-- C9: a fetch failure yields a failed page, and any failed page (fetch,
parse or extraction exception) produces no PageRecord, changes neither the
visited set nor the Result, is never retried, and the crawl continues with
the next frontier entry; the loop itself is a total function, so the Result
gathered so far is always returned (and written). -/
theorem claim9_error_isolated :
    (∀ (ctx : Ctx) (u : String), fetchDoc ctx.web u = none → processPage ctx u = none) ∧
    (∀ (ctx : Ctx) (base u : String) (d : Nat) (rest : List (String × Nat))
        (v : List String) (r : List PageRecord),
      processPage ctx u = none →
      crawlLoop ctx base ((u, d) :: rest) v r = crawlLoop ctx base rest v r) := by
  constructor
  · intro ctx u h
    unfold processPage
    rw [h]
  · intro ctx base u d rest v r hp
    exact crawlLoop_skip ctx base u d rest v r hp

/-- C9 (witness): with an empty web, the seed's fetch raises and the crawl
continues past it. -/
theorem claim9_witness :
    crawlLoop ctx9 "e.com" [("http://e.com/x", 0)] ["http://e.com/x"] [] =
      crawlLoop ctx9 "e.com" [] ["http://e.com/x"] [] :=
  claim9_error_isolated.2 ctx9 "e.com" "http://e.com/x" 0 [] ["http://e.com/x"] [] rfl

/-- C10: on `noBodyDoc` — which matches none of the container selectors and
has no `<body>` — the container lookup yields `none`, so `extract_content`
dereferences a missing body and raises (returns `none`) instead of a string;
inside the crawl this exception is absorbed: the page yields no PageRecord
and the loop continues with the next frontier entry. -/
theorem claim10_missing_body :
    contentContainer (removeTags unwantedTags noBodyDoc) = none ∧
    extract_content noBodyDoc = none ∧
    processPage ctx10 "http://e.com/nobody" = none ∧
    crawlLoop ctx10 "e.com" [("http://e.com/nobody", 0), ("http://e.com/ok", 0)]
        ["http://e.com/nobody", "http://e.com/ok"] [] =
      crawlLoop ctx10 "e.com" [("http://e.com/ok", 0)]
        ["http://e.com/nobody", "http://e.com/ok"] [] :=
  ⟨rfl, rfl, rfl,
   crawlLoop_skip ctx10 "e.com" "http://e.com/nobody" 0 [("http://e.com/ok", 0)]
     ["http://e.com/nobody", "http://e.com/ok"] [] rfl⟩

end Scraper
